import Mathlib

/-!
Verification development for the chat-question monitoring pipeline.

The Python sources are embedded shallowly:
- texts are lists of characters (`Str`); Python `str.lower`, `str.strip`,
  `len` and `str.count` become the executable functions below;
- each regular expression used by the filter is translated into a bespoke
  executable matcher (`isSub` for literal patterns, `ordSub` for patterns
  of literals joined by `.*`, which cannot cross a newline, and dedicated
  scanners for the anchored or character-class patterns);
- the SQLite table of `SentQuestionRepository` becomes a list of records,
  with `INSERT OR IGNORE` modelled as insert-if-absent on the unique key
  and timestamps modelled as integers ordered like the stored ISO strings;
- network collaborators (the chat source, the classifier backend, the
  notification sink) become oracle parameters, and a raised exception
  becomes an `Except` error value.
-/

namespace VoprosAI

/-- A Python string, modelled as its list of characters. -/
abbrev Str := List Char

/-- Characters removed by `str.strip` (the whitespace the repository's texts use). -/
def isPySpace (c : Char) : Bool :=
  c == ' ' || c == '\t' || c == '\n' || c == '\r' || c == '\x0B' || c == '\x0C'

/-- Python `str.strip`: drop whitespace from both ends. -/
def pyStrip (s : Str) : Str :=
  ((s.dropWhile isPySpace).reverse.dropWhile isPySpace).reverse

/-- Decidable interval test on a code point. -/
def between (lo hi n : Nat) : Bool := decide (lo ≤ n) && decide (n ≤ hi)

/-- Python `str.lower` on one character, for the Latin and Cyrillic letters
the repository's patterns target; other characters are unchanged. -/
def pyLowerChar (c : Char) : Char :=
  if between 65 90 c.toNat || between 0x410 0x42F c.toNat then Char.ofNat (c.toNat + 32)
  else if c == 'Ё' then 'ё'
  else c

/-- Python `str.lower` on a text. -/
def pyLower (s : Str) : Str := s.map pyLowerChar

/-- Character list of a string literal. -/
def strOf (s : String) : Str := s.data

/-- Boolean prefix test. -/
def isPrefixB : Str → Str → Bool
  | [], _ => true
  | _ :: _, [] => false
  | p :: ps, t :: ts => p == t && isPrefixB ps ts

/-- Does some suffix of the text satisfy the scanner `f`? -/
def anySuffix (f : Str → Bool) : Str → Bool
  | [] => f []
  | c :: t => f (c :: t) || anySuffix f t

/-- `re.search` of a literal pattern: the pattern occurs as a substring. -/
def isSub (p t : Str) : Bool := anySuffix (isPrefixB p) t

/-- Drop everything up to and including the first occurrence of `p`;
`none` when `p` does not occur. -/
def dropAfterFirst (p : Str) : Str → Option Str
  | [] => if isPrefixB p [] then some [] else none
  | c :: t =>
      if isPrefixB p (c :: t) then some (List.drop p.length (c :: t))
      else dropAfterFirst p t

/-- The literal parts occur in order, disjointly, within one line. -/
def ordSubLine : List Str → Str → Bool
  | [], _ => true
  | p :: ps, t =>
      match dropAfterFirst p t with
      | none => false
      | some r => ordSubLine ps r

/-- Split a text at newline characters. -/
def linesOf (t : Str) : List Str :=
  t.foldr
    (fun c acc =>
      match acc with
      | [] => [[c]]
      | a :: as => if c == '\n' then [] :: a :: as else (c :: a) :: as)
    [[]]

/-- `re.search` of a pattern `p1.*p2.*...`: since `.` does not match a
newline and no part contains one, the whole match lies within one line. -/
def ordSub (ps : List Str) (t : Str) : Bool := (linesOf t).any (ordSubLine ps)

/-- Python `str.count` for a single character. -/
def countChar (c : Char) (t : Str) : Nat := t.count c

/-- Python `\w` for the alphabets the repository's texts use:
Latin letters, digits, underscore and Cyrillic letters. -/
def isWordChar (c : Char) : Bool :=
  between 97 122 c.toNat || between 65 90 c.toNat || between 48 57 c.toNat ||
  c == '_' || between 0x430 0x44F c.toNat || between 0x410 0x42F c.toNat ||
  c == 'ё' || c == 'Ё'

/-- The scanner for `prefix[^\s]+`: the literal prefix followed by at least
one non-whitespace character. -/
def hasNonSpaceAfter (p : Str) (s : Str) : Bool :=
  isPrefixB p s &&
    (match List.drop p.length s with
     | [] => false
     | c :: _ => !(isPySpace c))

/-- Pattern `https?://[^\s]+` from `QuestionFilterService.has_links`. -/
def linkHttp (t : Str) : Bool :=
  anySuffix (fun s => hasNonSpaceAfter (strOf "http://") s || hasNonSpaceAfter (strOf "https://") s) t

/-- Pattern `www\.[^\s]+` from `has_links`. -/
def linkWww (t : Str) : Bool := anySuffix (hasNonSpaceAfter (strOf "www.")) t

/-- Pattern `t\.me/[^\s]+` from `has_links`. -/
def linkTme (t : Str) : Bool := anySuffix (hasNonSpaceAfter (strOf "t.me/")) t

/-- Pattern `@\w+\.\w+` from `has_links`. -/
def linkEmail (t : Str) : Bool :=
  anySuffix
    (fun s =>
      match s with
      | '@' :: r =>
          let w := r.takeWhile isWordChar
          !w.isEmpty &&
            (match List.drop w.length r with
             | '.' :: d :: _ => isWordChar d
             | _ => false)
      | _ => false)
    t

/-- The top-level domains of the bare-domain pattern in `has_links`. -/
def tlds : List Str :=
  [strOf "com", strOf "ru", strOf "org", strOf "net", strOf "io", strOf "ai",
   strOf "xyz", strOf "app"]

/-- Pattern `\w+\.(com|ru|org|net|io|ai|xyz|app)[^\s]*` from `has_links`. -/
def linkDomain (t : Str) : Bool :=
  anySuffix
    (fun s =>
      match s with
      | a :: '.' :: r => isWordChar a && tlds.any (fun d => isPrefixB d r)
      | _ => false)
    t

/-- `QuestionFilterService.has_links`: the text, lower-cased, matches one of
the five link patterns. -/
def has_links (text : Str) : Bool :=
  let tl := pyLower text
  linkHttp tl || linkWww tl || linkTme tl || linkEmail tl || linkDomain tl

/-- The `RHETORICAL_PATTERNS` list of `QuestionFilterService`. -/
def rhetorical_pattern_match (tl : Str) : Bool :=
  isSub (strOf "ваше мнение") tl || isSub (strOf "что думаете") tl ||
  ordSub [strOf "интересно", strOf "мнение"] tl ||
  ordSub [strOf "зачем", strOf "собрались"] tl ||
  isSub (strOf "как так получилось") tl || isSub (strOf "что это значит") tl ||
  isSub (strOf "в чем суть") tl || isSub (strOf "в чем смысл") tl

/-- The regex `(как|что|почему|зачем|где)` from `is_rhetorical_question`:
the text contains one of the five interrogative words of the source. -/
def interrogative_five (tl : Str) : Bool :=
  isSub (strOf "как") tl || isSub (strOf "что") tl || isSub (strOf "почему") tl ||
  isSub (strOf "зачем") tl || isSub (strOf "где") tl

/-- `QuestionFilterService.is_rhetorical_question`, translated clause by
clause from the source. -/
def is_rhetorical_question (text : Str) : Bool :=
  let tl := pyLower text
  if rhetorical_pattern_match tl then true
  else if decide (tl.length < 40) && decide (0 < countChar '?' tl) &&
          !(interrogative_five tl) then true
  else false

/-- The `USELESS_PATTERNS` list of `QuestionFilterService` (the trailing
optional `\??` of two patterns constrains nothing and is dropped). -/
def useless_match (tl : Str) : Bool :=
  ordSub [strOf "какое", strOf "отношение", strOf "имеет", strOf "к", strOf "диалогу"] tl ||
  ordSub [strOf "к", strOf "нашему", strOf "разговору"] tl ||
  isSub (strOf "что это значит") tl || isSub (strOf "просто интересно") tl ||
  ordSub [strOf "уточнить", strOf "контекст"] tl || isSub (strOf "при чем тут") tl

/-- The self-reflection regex of `is_real_question`. -/
def self_reflection_match (tl : Str) : Bool :=
  ordSub [strOf "я спросил", strOf "?"] tl || isSub (strOf "ответ:") tl

/-- The `BORING_PATTERNS` list of `QuestionFilterService`. -/
def boring_match (tl : Str) : Bool :=
  isSub (strOf "понедельник") tl ||
  (isPrefixB (strOf "всем") tl &&
     isPrefixB (strOf "привет") ((List.drop (strOf "всем").length tl).dropWhile isPySpace)) ||
  isSub (strOf "добрый") tl || isSub (strOf "доброго") tl ||
  isSub (strOf "доброе утро") tl || isSub (strOf "удачи") tl ||
  isSub (strOf "#") tl || isSub (strOf "завелся") tl || isSub (strOf "вдохновени") tl ||
  isSub (strOf "дай совет") tl || isSub (strOf "дайте совет") tl ||
  isSub (strOf "мотиваци") tl || isSub (strOf "успеха") tl || isSub (strOf "подпиш") tl ||
  isSub (strOf "как дела") tl || isSub (strOf "работает кто") tl ||
  isSub (strOf "есть кто") tl || isSub (strOf "всем приветик") tl ||
  isSub (strOf "кого нет") tl || isSub (strOf "кого добавить") tl ||
  isSub (strOf "без темы") tl || isSub (strOf "на подумать") tl ||
  isSub (strOf "почти вопрос") tl || isSub (strOf "кстати") tl

/-- The interrogative alternation of the first `QUESTION_PATTERNS` regex. -/
def interrogativeWords : List Str :=
  [strOf "как", strOf "что", strOf "где", strOf "когда", strOf "почему",
   strOf "зачем", strOf "кто", strOf "какой", strOf "кому", strOf "сколько",
   strOf "нужно ли", strOf "стоит ли"]

/-- The tail `[^\.\!\?]*\?` of the first question pattern: the first
sentence-ending punctuation character ahead exists and is a question mark. -/
def qTail : Str → Bool
  | [] => false
  | c :: r =>
      if c == '?' then true
      else if c == '.' || c == '!' then false
      else qTail r

/-- The first `QUESTION_PATTERNS` regex: an interrogative word whose clause
ends with a question mark. -/
def question_pattern_head (tl : Str) : Bool :=
  anySuffix
    (fun s => interrogativeWords.any (fun w => isPrefixB w s && qTail (List.drop w.length s)))
    tl

/-- The last `QUESTION_PATTERNS` regex `\w+\?`: some word character is
directly followed by a question mark. -/
def word_question_mark : Str → Bool
  | a :: b :: r => (isWordChar a && b == '?') || word_question_mark (b :: r)
  | _ => false

/-- The `QUESTION_PATTERNS` list of `QuestionFilterService` (the alternation
of the third pattern reduces to its two non-subsumed literals). -/
def question_match (tl : Str) : Bool :=
  question_pattern_head tl || isSub (strOf "подскажите") tl ||
  isSub (strOf "посоветуйте") tl ||
  isSub (strOf "может кто") tl || isSub (strOf "может у кого") tl ||
  word_question_mark tl

/-- The literal alternatives of the first `EXCLUSION_PATTERNS` regex. -/
def exclusionWords : List Str :=
  [strOf "lol", strOf "ахах", strOf "прикол", strOf "шутка", strOf "ржу",
   strOf "😂", strOf "😆", strOf "🤔", strOf "😅", strOf "😜", strOf "😏",
   strOf "😎", strOf "😉", strOf "бот", strOf "ушёл", strOf "отдыхать",
   strOf "устал"]

/-- A Cyrillic letter of the ranges named by the second exclusion pattern. -/
def isCyrAZ (c : Char) : Bool :=
  between 0x430 0x44F c.toNat || between 0x410 0x42F c.toNat

/-- The second `EXCLUSION_PATTERNS` regex `^[^а-яА-Я]*$`: every character of
the text, newlines included, lies outside the Cyrillic ranges. -/
def only_non_cyrillic (tl : Str) : Bool := tl.all (fun c => !(isCyrAZ c))

/-- The acknowledgement words of the third exclusion pattern. -/
def ackWords : List Str :=
  [strOf "класс", strOf "понятно", strOf "ясно", strOf "спасибо"]

/-- The third `EXCLUSION_PATTERNS` regex `^(класс|понятно|ясно|спасибо).{,12}$`:
an acknowledgement word followed by at most twelve non-newline characters,
allowing one trailing newline before the end anchor. -/
def short_ack (tl : Str) : Bool :=
  ackWords.any
    (fun w =>
      isPrefixB w tl &&
        (let r := List.drop w.length tl
         (decide (r.length ≤ 12) && !(r.any (· == '\n'))) ||
         (match r.getLast? with
          | some c =>
              c == '\n' && decide (r.dropLast.length ≤ 12) &&
                !(r.dropLast.any (· == '\n'))
          | none => false)))

/-- The `EXCLUSION_PATTERNS` list of `QuestionFilterService`. -/
def exclusion_match (tl : Str) : Bool :=
  exclusionWords.any (fun w => isSub w tl) || only_non_cyrillic tl || short_ack tl

/-- The about-self regex `я .*думаю|я .*узнал|я .*считаю` of `is_real_question`. -/
def about_self_match (tl : Str) : Bool :=
  ordSub [strOf "я ", strOf "думаю"] tl || ordSub [strOf "я ", strOf "узнал"] tl ||
  ordSub [strOf "я ", strOf "считаю"] tl

/-- `QuestionFilterService.is_real_question`, translated check by check in
the source's order: emptiness, stripped length, links, newline count,
useless patterns, self-reflection, rhetoric, boring patterns, a required
question pattern, exclusions, and the about-self rejection. -/
def is_real_question (text : Str) : Bool :=
  if (pyStrip text).isEmpty then false
  else
    let ts := pyStrip text
    if decide (ts.length < 20) || decide (700 < ts.length) then false
    else
      let tl := pyLower ts
      if has_links ts then false
      else if decide (3 < countChar '\n' ts) then false
      else if useless_match tl then false
      else if self_reflection_match tl then false
      else if is_rhetorical_question ts then false
      else if boring_match tl then false
      else if !(question_match tl) then false
      else if exclusion_match tl then false
      else if about_self_match tl then false
      else true

/-- `QuestionFilterService.filter_questions`: keep the messages whose text
is a real question, preserving order; the metadata rides along. -/
def filter_questions {α : Type} (messages : List (Str × α)) : List (Str × α) :=
  messages.filter (fun p => is_real_question p.1)

/-- The filter-rate expression of the `filter_questions` summary: the ratio
is computed only under the guard that the input list is non-empty. -/
def filter_rate {α β : Type} (messages : List α) (questions : List β) : Option ℚ :=
  if messages.isEmpty then none
  else some ((questions.length : ℚ) / (messages.length : ℚ) * 100)

/-- One row of the `sent_questions` table of `SentQuestionRepository`.
The `chat_id` is stored as text (the source converts with `str`); the
`sent_at` ISO-8601 string is modelled by an integer with the same order. -/
structure SentRecord where
  chat_id : Str
  message_id : Int
  question_hash : Str
  sent_at : Int
deriving DecidableEq, Repr

/-- The `(chat_id, message_id)` uniqueness key of the table. -/
def keyMatches (r : SentRecord) (cid : Str) (mid : Int) : Bool :=
  decide (r.chat_id = cid ∧ r.message_id = mid)

/-- `SentQuestionRepository.is_already_sent`: `SELECT COUNT(*)` over the key
and compare the count with zero. -/
def is_already_sent (db : List SentRecord) (cid : Str) (mid : Int) : Bool :=
  decide (0 < (db.filter (fun r => keyMatches r cid mid)).length)

/-- `SentQuestionRepository.mark_as_sent`: `INSERT OR IGNORE` under the
`UNIQUE(chat_id, message_id)` constraint; the duplicate case is a no-op and
the call reports success either way. -/
def mark_as_sent (db : List SentRecord) (q : SentRecord) : List SentRecord × Bool :=
  if db.any (fun r => keyMatches r q.chat_id q.message_id) then (db, true)
  else (db ++ [q], true)

/-- Seconds per day, the granularity of the integer timestamps. -/
def secondsPerDay : Int := 86400

/-- `SentQuestionRepository.cleanup_old_records`: `DELETE WHERE sent_at <
now - days_to_keep`, returning the surviving table and the row count of the
delete. Both calls of an immediate repetition observe the same `now`. -/
def cleanup_old_records (db : List SentRecord) (now : Int) (days_to_keep : Int) :
    List SentRecord × Nat :=
  let cutoff := now - days_to_keep * secondsPerDay
  (db.filter (fun r => !(decide (r.sent_at < cutoff))),
   (db.filter (fun r => decide (r.sent_at < cutoff))).length)

/-- Outcome of one chat-completion call against the classifier backend:
a raised exception, a response without choices, or a reply text. -/
inductive BackendResult where
  | failure
  | emptyChoices
  | reply (content : Str)
deriving DecidableEq

/-- The fixed fallback topic string of `determine_chat_topic`. -/
def fallbackTopic : Str := strOf "Общая тематика не определена"

/-- The characters kept by the topic cleanup `re.sub` (word characters,
whitespace, comma, dot). -/
def topicKeepChar (c : Char) : Bool :=
  isWordChar c || isPySpace c || c == ',' || c == '.'

/-- `AIAnalyzerService.determine_chat_topic`, as a function of the outcome
of its backend call: failures and empty responses yield the fallback topic,
a reply is stripped, cleaned of special characters and stripped again. -/
def determine_chat_topic (backend : BackendResult) : Str :=
  match backend with
  | .failure => fallbackTopic
  | .emptyChoices => fallbackTopic
  | .reply c => pyStrip ((pyStrip c).filter topicKeepChar)

/-- The affirmative token the three boolean judgments look for. -/
def affirmative : Str := strOf "да"

/-- The reply parse of the boolean judgments: lower-case the reply and look
for the affirmative token as a substring. -/
def contains_affirmative (c : Str) : Bool := isSub affirmative (pyLower c)

/-- `AIAnalyzerService.is_question_on_topic`, as a function of the outcome
of its backend call. -/
def is_question_on_topic (backend : BackendResult) : Bool :=
  match backend with
  | .failure => false
  | .emptyChoices => false
  | .reply c => contains_affirmative c

/-- `AIAnalyzerService.can_answer_confidently`, as a function of the outcome
of its backend call. -/
def can_answer_confidently (backend : BackendResult) : Bool :=
  match backend with
  | .failure => false
  | .emptyChoices => false
  | .reply c => contains_affirmative c

/-- `AIAnalyzerService.is_potential_order`, as a function of the outcome of
its backend call. -/
def is_potential_order (backend : BackendResult) : Bool :=
  match backend with
  | .failure => false
  | .emptyChoices => false
  | .reply c => contains_affirmative c

/-- The `Chat` model (the fields `process_chat` uses). -/
structure Chat where
  id : Str
  title : Str
  link : Str
deriving DecidableEq

/-- The metadata dictionary attached to a fetched message. -/
structure MessageMeta where
  sender_name : Str
  sender_id : Int
  message_id : Int
  date : Int
deriving DecidableEq

/-- The `Question` model built by step 6 of `process_chat`. -/
structure Question where
  text : Str
  sender_name : Str
  sender_id : Int
  message_id : Int
  chat_id : Str
  chat_title : Str
  date : Int
deriving DecidableEq

/-- The `Question` construction of `process_chat` step 6. -/
def mkQuestion (chat : Chat) (p : Str × MessageMeta) : Question :=
  { text := p.1
    sender_name := p.2.sender_name
    sender_id := p.2.sender_id
    message_id := p.2.message_id
    chat_id := chat.id
    chat_title := chat.title
    date := p.2.date }

/-- One classifier call made by the per-candidate loop of `process_chat`. -/
inductive GateCall where
  | onTopicCall
  | confidenceCall
  | orderCall
deriving DecidableEq

/-- The body of the per-candidate loop of `process_chat` step 5, translated
from the source and instrumented with the list of classifier calls it makes:
topic check first, then confidence, then potential order, each `continue`
on a negative verdict skipping the later calls. -/
def gate_candidate (onTopic canAnswer isOrder : Str → Bool) (q : Str) :
    Bool × List GateCall :=
  if !(onTopic q) then (false, [GateCall.onTopicCall])
  else if !(canAnswer q) then (false, [GateCall.onTopicCall, GateCall.confidenceCall])
  else if !(isOrder q) then
    (false, [GateCall.onTopicCall, GateCall.confidenceCall, GateCall.orderCall])
  else (true, [GateCall.onTopicCall, GateCall.confidenceCall, GateCall.orderCall])

/-- Result of one `process_chat` invocation: the returned count, the dedup
table after the run, and the successfully sent candidates in order. -/
structure ProcessResult where
  sent_count : Nat
  db : List SentRecord
  sent : List (Str × MessageMeta)
deriving DecidableEq

/-- `TelegramMonitorService.process_chat` on its success path, as a function
of the fetched messages and oracles for the collaborators: `topicOf` is the
topic the analyzer returns for the full unfiltered batch, the three boolean
oracles are the classifier verdicts, `sink` is the bot send outcome. The
dedup table is part of the program state; the source never consults or
updates `SentQuestionRepository`, so the table passes through unchanged and
no candidate is dropped or committed because of it. -/
def process_chat (chat : Chat) (messages : List (Str × MessageMeta))
    (topicOf : List Str → Str) (onTopic : Str → Str → Bool)
    (canAnswer isOrder : Str → Bool) (sink : Question → Bool)
    (db : List SentRecord) : ProcessResult :=
  if messages.isEmpty then ⟨0, db, []⟩
  else
    let filtered := filter_questions messages
    if filtered.isEmpty then ⟨0, db, []⟩
    else
      let topic := topicOf (messages.map Prod.fst)
      let suitable := filtered.filter
        (fun p => (gate_candidate (fun q => onTopic q topic) canAnswer isOrder p.1).1)
      let sentPairs := suitable.filter (fun p => sink (mkQuestion chat p))
      ⟨sentPairs.length, db, sentPairs⟩

/-- The exception taxonomy `monitor_chats` and `validate_chats` catch: the
source raises `ValueError`, `PermissionError`, `ConnectionError`, or some
other `Exception`; every branch is handled identically apart from logging. -/
inductive PyError where
  | valueError
  | permissionError
  | connectionError
  | otherError
deriving DecidableEq

/-- First-match lookup in the results dictionary. -/
def lookupKey {V : Type} : List (Str × V) → Str → Option V
  | [], _ => none
  | (k, v) :: m, k' => if k = k' then some v else lookupKey m k'

/-- Dictionary assignment `results[link] = v`: overwrite the existing entry
or append a new one. -/
def setEntry {V : Type} (m : List (Str × V)) (k : Str) (v : V) : List (Str × V) :=
  if m.any (fun p => decide (p.1 = k)) then
    m.map (fun p => if p.1 = k then (k, v) else p)
  else m ++ [(k, v)]

/-- The per-link delivered count `monitor_chats` records: the processed
count on success, zero when any of the four handled exception kinds was
raised. -/
def deliveredOf (proc : Str → Except PyError Nat) (link : Str) : Nat :=
  match proc link with
  | .ok n => n
  | .error _ => 0

/-- One iteration of the `monitor_chats` loop: process the link, store its
count, store zero when the processing raised. -/
def monitor_step (proc : Str → Except PyError Nat) (res : List (Str × Nat))
    (link : Str) : List (Str × Nat) :=
  setEntry res link (deliveredOf proc link)

/-- `TelegramMonitorService.monitor_chats`: fold the per-link step over the
configured links, starting from an empty results dictionary. A total
function: no exception reaches the caller. -/
def monitor_chats (links : List Str) (proc : Str → Except PyError Nat) :
    List (Str × Nat) :=
  links.foldl (monitor_step proc) []

/-- `TelegramMonitorService.validate_chats`: keep the links whose metadata
resolution succeeds, in order; a failed resolution of one link only skips
that link. -/
def validate_chats (links : List Str) (getInfo : Str → Except PyError Chat) :
    List Str :=
  links.foldl
    (fun acc l =>
      match getInfo l with
      | .ok _ => acc ++ [l]
      | .error _ => acc)
    []

/-- Did the call succeed? -/
def isOkB {ε α : Type} : Except ε α → Bool
  | .ok _ => true
  | .error _ => false

/-- The suitable-question example of the spec, a text `is_real_question`
accepts. -/
def exampleQuestion : Str :=
  strOf "Как автоматизировать выгрузку товаров с Wildberries на Python через API без ручного ввода данных?"

/-- A short text whose `?` clause starts with an interrogative word the
source's rhetoric regex does not list. -/
def whenText : Str := strOf "когда придешь?"

/-- A short rhetorical text without any of the source's five interrogative
words. -/
def shortRhetoricalText : Str := strOf "ну и ну?"

/-- A concrete chat for the pipeline evaluations. -/
def chatC : Chat := ⟨strOf "c", strOf "Чат", strOf "link"⟩

/-- Concrete metadata carrying message id 10. -/
def metaM : MessageMeta := ⟨strOf "Автор", 7, 10, 0⟩

/-- A one-message batch whose text is a suitable question. -/
def messagesC : List (Str × MessageMeta) := [(exampleQuestion, metaM)]

/-- A dedup table already holding the key of `messagesC`. -/
def dbC : List SentRecord := [⟨strOf "c", 10, strOf "h", 0⟩]

/-- A fresh record for the repository evaluations. -/
def recR : SentRecord := ⟨strOf "c", 5, strOf "h", 100⟩

/-- A concrete per-link processing outcome: the first link succeeds with
two deliveries, every other link raises a connection error. -/
def procW : Str → Except PyError Nat :=
  fun l => if l = strOf "a" then Except.ok 2 else Except.error PyError.connectionError

/-- A concrete resolution outcome: the first link resolves, every other
link is not found. -/
def getInfoW : Str → Except PyError Chat :=
  fun l => if l = strOf "a" then Except.ok chatC else Except.error PyError.valueError

/-- A 701-character text whose stripped form has exactly 700 characters
and is a suitable question. -/
def longQuestionText : Str :=
  strOf "оооооооооооооооооооооооооооооооооооооооооооооооооооооооооооооооооооооооооооооооооооооооооооооооооооооооооооооооооооооооооооооооооооооооооооооооооооооооооооооооооооооооооооооооооооооооооооооооооооооооооооооооооооооооооооооооооооооооооооооооооооооооооооооооооооооооооооооооооооооооооооооооооооооооооооооооооооооооооооооооооооооооооооооооооооооооооооооооооооооооооооооооооооооооооооооооооооооооооооооооооооооооооооооооооооооооооооооооооооооооооооооооооооооооооооооооооооооооооооооооооооооооооооооооооооооооооооооооооооооооооооооооооооооооооооооооооооооооооооооооооооооооооооооооооооооооооооооооооооооооооо Как автоматизировать выгрузку товаров с Wildberries на Python через API без ручного ввода данных? "

/-! Helper lemmas shared by the claim theorems. -/

/-- Dropping a prefix never lengthens a list. -/
theorem length_dropWhile_le {α : Type} (p : α → Bool) (l : List α) :
    (l.dropWhile p).length ≤ l.length := by
  induction l with
  | nil => simp
  | cons a l ih =>
      rw [List.dropWhile_cons]
      split
      · exact Nat.le_trans ih (Nat.le_succ _)
      · exact Nat.le_refl _

/-- Stripping never lengthens a text. -/
theorem pyStrip_length_le (t : Str) : (pyStrip t).length ≤ t.length := by
  unfold pyStrip
  rw [List.length_reverse]
  calc ((t.dropWhile isPySpace).reverse.dropWhile isPySpace).length
      ≤ (t.dropWhile isPySpace).reverse.length := length_dropWhile_le _ _
    _ = (t.dropWhile isPySpace).length := List.length_reverse _
    _ ≤ t.length := length_dropWhile_le _ _

/-- Lower-casing preserves the length of a text. -/
theorem pyLower_length (t : Str) : (pyLower t).length = t.length :=
  List.length_map _ _

/-- The two halves of a filter partition a list's length. -/
theorem filter_not_add_filter_length {α : Type} (p : α → Bool) (l : List α) :
    (l.filter (fun a => !(p a))).length + (l.filter p).length = l.length := by
  induction l with
  | nil => rfl
  | cons a l ih => cases h : p a <;> simp [List.filter_cons, h] <;> omega

/-! Theorems for the claims, one per claim, with the helper lemmas above. -/

/-- C10: for the empty input list, `filter_questions` returns the empty
list and completes; the filter-rate division is guarded by the non-empty
check, so the empty input takes the division-free branch. -/
theorem filter_questions_empty_no_division :
    ∀ (α : Type), filter_questions ([] : List (Str × α)) = [] ∧
      filter_rate ([] : List (Str × α)) (filter_questions ([] : List (Str × α))) = none :=
  fun _ => ⟨rfl, rfl⟩

/-- C5 (amended): `is_real_question` returns false for every text whose
stripped form is shorter than 20 or longer than 700 characters; in
particular every text whose raw length is below 20 is rejected, since
stripping never lengthens a text. -/
theorem is_real_question_length_reject :
    (∀ t : Str, ((pyStrip t).length < 20 ∨ 700 < (pyStrip t).length) →
      is_real_question t = false) ∧
    (∀ t : Str, t.length < 20 → is_real_question t = false) := by
  have main : ∀ t : Str, ((pyStrip t).length < 20 ∨ 700 < (pyStrip t).length) →
      is_real_question t = false := by
    intro t h
    unfold is_real_question
    by_cases he : (pyStrip t).isEmpty
    · simp [he]
    · have hcond :
          (decide ((pyStrip t).length < 20) || decide (700 < (pyStrip t).length)) = true := by
        rcases h with h | h
        · simp [h]
        · simp [h]
      simp only [he, Bool.false_eq_true, if_false, hcond, if_true]
  refine ⟨main, fun t h => main t (Or.inl ?_)⟩
  exact Nat.lt_of_le_of_lt (pyStrip_length_le t) h

/-- C5 witness: the length bound applied at a concrete short text. -/
theorem is_real_question_length_reject_witness :
    (strOf "мало букв").length < 20 ∧ is_real_question (strOf "мало букв") = false :=
  ⟨by decide, is_real_question_length_reject.2 (strOf "мало букв") (by decide)⟩

set_option maxRecDepth 1000000 in
/-- C5 counterexample: a 701-character raw text (700 characters once
stripped) that `is_real_question` accepts, so the claim read on the raw
length fails for the over-700 direction. -/
theorem is_real_question_long_raw_text_accepted :
    700 < longQuestionText.length ∧ is_real_question longQuestionText = true := by
  constructor
  · decide
  · decide

/-- C6 (amended): outside the rhetorical-phrase patterns,
`is_rhetorical_question` holds exactly when the text is shorter than 40
characters, contains a question mark, and contains none of the source's
five interrogative words (как, что, почему, зачем, где). -/
theorem is_rhetorical_question_characterization :
    ∀ t : Str, rhetorical_pattern_match (pyLower t) = false →
      (is_rhetorical_question t = true ↔
        (t.length < 40 ∧ 0 < countChar '?' (pyLower t) ∧
         interrogative_five (pyLower t) = false)) := by
  intro t h
  unfold is_rhetorical_question
  simp only [h, Bool.false_eq_true, if_false, pyLower_length]
  constructor
  · intro hc
    split at hc
    · next hcond =>
        simp only [Bool.and_eq_true, decide_eq_true_eq, Bool.not_eq_true'] at hcond
        exact ⟨hcond.1.1, hcond.1.2, hcond.2⟩
    · exact absurd hc (by simp)
  · intro ⟨h1, h2, h3⟩
    have : (decide (t.length < 40) && decide (0 < countChar '?' (pyLower t)) &&
        !(interrogative_five (pyLower t))) = true := by
      simp [h1, h2, h3]
    simp [this]

/-- C6 witness: the characterization applied at a concrete short question
without interrogative words. -/
theorem is_rhetorical_question_characterization_witness :
    rhetorical_pattern_match (pyLower shortRhetoricalText) = false ∧
    (is_rhetorical_question shortRhetoricalText = true ↔
      (shortRhetoricalText.length < 40 ∧
       0 < countChar '?' (pyLower shortRhetoricalText) ∧
       interrogative_five (pyLower shortRhetoricalText) = false)) :=
  ⟨by decide, is_rhetorical_question_characterization shortRhetoricalText (by decide)⟩

/-- C6 counterexample: the text does not match a rhetorical-phrase pattern,
yet the biconditional of the claim fails on it when the word set is the
spec's seven interrogatives: the text contains the seventh word yet the
code still classifies it as rhetorical, because the source's regex lists
only five words and leaves out this one. -/
theorem rhetorical_seven_word_set_refuted :
    rhetorical_pattern_match (pyLower whenText) = false ∧
    ¬(is_rhetorical_question whenText = true ↔
        (whenText.length < 40 ∧ 0 < countChar '?' (pyLower whenText) ∧
         (!(isSub (strOf "как") (pyLower whenText) ||
            isSub (strOf "что") (pyLower whenText) ||
            isSub (strOf "где") (pyLower whenText) ||
            isSub (strOf "когда") (pyLower whenText) ||
            isSub (strOf "почему") (pyLower whenText) ||
            isSub (strOf "кто") (pyLower whenText) ||
            isSub (strOf "какой") (pyLower whenText))) = true)) := by
  constructor
  · decide
  · decide

/-- C3: the four classifier-gateway operations are total functions of the
backend outcome, so no backend error reaches the caller; a failure yields
the fixed fallback topic for `determine_chat_topic` and `false` for the
three boolean judgments (as does a reply without choices), and on a reply
each boolean judgment is true exactly when the lower-cased reply contains
the affirmative token. -/
theorem classifier_gateway_fail_closed :
    determine_chat_topic BackendResult.failure = fallbackTopic ∧
    is_question_on_topic BackendResult.failure = false ∧
    can_answer_confidently BackendResult.failure = false ∧
    is_potential_order BackendResult.failure = false ∧
    determine_chat_topic BackendResult.emptyChoices = fallbackTopic ∧
    is_question_on_topic BackendResult.emptyChoices = false ∧
    can_answer_confidently BackendResult.emptyChoices = false ∧
    is_potential_order BackendResult.emptyChoices = false ∧
    (∀ c : Str,
      (is_question_on_topic (BackendResult.reply c) = true ↔
        isSub affirmative (pyLower c) = true) ∧
      (can_answer_confidently (BackendResult.reply c) = true ↔
        isSub affirmative (pyLower c) = true) ∧
      (is_potential_order (BackendResult.reply c) = true ↔
        isSub affirmative (pyLower c) = true)) :=
  ⟨rfl, rfl, rfl, rfl, rfl, rfl, rfl, rfl,
   fun _ => ⟨Iff.rfl, Iff.rfl, Iff.rfl⟩⟩

/-- C7: marking the same `(chat_id, message_id)` key twice leaves exactly
one record with that key; the second call reports success and changes
nothing, by the insert-if-absent semantics of the unique constraint. -/
theorem mark_as_sent_idempotent :
    ∀ (db : List SentRecord) (q : SentRecord),
      (db.filter (fun r => keyMatches r q.chat_id q.message_id)).length = 0 →
      (mark_as_sent (mark_as_sent db q).1 q).2 = true ∧
      (mark_as_sent (mark_as_sent db q).1 q).1 = (mark_as_sent db q).1 ∧
      ((mark_as_sent (mark_as_sent db q).1 q).1.filter
          (fun r => keyMatches r q.chat_id q.message_id)).length = 1 := by
  intro db q h
  have hnil : db.filter (fun r => keyMatches r q.chat_id q.message_id) = [] :=
    List.length_eq_zero.mp h
  have hallnot : ∀ r ∈ db, ¬(keyMatches r q.chat_id q.message_id = true) :=
    fun r hr => by simpa using List.filter_eq_nil_iff.mp hnil r hr
  have hany : db.any (fun r => keyMatches r q.chat_id q.message_id) = false := by
    rw [Bool.eq_false_iff]
    intro hcontra
    obtain ⟨r, hr, hkr⟩ := List.any_eq_true.mp hcontra
    exact hallnot r hr hkr
  have hself : keyMatches q q.chat_id q.message_id = true := by simp [keyMatches]
  have h1 : (mark_as_sent db q).1 = db ++ [q] := by
    simp [mark_as_sent, hany]
  have hany2 : (db ++ [q]).any (fun r => keyMatches r q.chat_id q.message_id) = true := by
    simp [List.any_append, hself]
  have h2 : mark_as_sent (db ++ [q]) q = (db ++ [q], true) := by
    simp [mark_as_sent, hany2]
  rw [h1, h2]
  refine ⟨rfl, rfl, ?_⟩
  rw [List.filter_append, hnil]
  simp [hself]

/-- C7 witness: double insertion of a fresh record into the empty table. -/
theorem mark_as_sent_idempotent_witness :
    (([] : List SentRecord).filter
        (fun r => keyMatches r recR.chat_id recR.message_id)).length = 0 ∧
    (mark_as_sent (mark_as_sent [] recR).1 recR).2 = true ∧
    (mark_as_sent (mark_as_sent [] recR).1 recR).1 = (mark_as_sent [] recR).1 ∧
    ((mark_as_sent (mark_as_sent [] recR).1 recR).1.filter
        (fun r => keyMatches r recR.chat_id recR.message_id)).length = 1 :=
  ⟨by decide, mark_as_sent_idempotent [] recR (by decide)⟩

/-- C8: immediately after `mark_as_sent` for a key, `is_already_sent` is
true for that key; and it is false for every key no stored record carries. -/
theorem is_already_sent_after_mark :
    ∀ (db : List SentRecord) (q : SentRecord) (cid : Str) (mid : Int),
      is_already_sent (mark_as_sent db q).1 q.chat_id q.message_id = true ∧
      ((∀ r ∈ db, keyMatches r cid mid = false) →
        is_already_sent db cid mid = false) := by
  intro db q cid mid
  constructor
  · have hself : keyMatches q q.chat_id q.message_id = true := by simp [keyMatches]
    unfold mark_as_sent
    split
    · next hany =>
        obtain ⟨r, hr, hkr⟩ := List.any_eq_true.mp hany
        have hmem : r ∈ db.filter (fun r => keyMatches r q.chat_id q.message_id) :=
          List.mem_filter.mpr ⟨hr, hkr⟩
        show is_already_sent db q.chat_id q.message_id = true
        exact decide_eq_true (List.length_pos.mpr (List.ne_nil_of_mem hmem))
    · have hmem : q ∈ (db ++ [q]).filter (fun r => keyMatches r q.chat_id q.message_id) :=
        List.mem_filter.mpr ⟨by simp, hself⟩
      show is_already_sent (db ++ [q]) q.chat_id q.message_id = true
      exact decide_eq_true (List.length_pos.mpr (List.ne_nil_of_mem hmem))
  · intro hall
    have : db.filter (fun r => keyMatches r cid mid) = [] :=
      List.filter_eq_nil_iff.mpr (fun r hr => by simp [hall r hr])
    unfold is_already_sent
    simp [this]

/-- C8 witness: the lookup after a concrete mark, and the negative lookup
on the empty table. -/
theorem is_already_sent_after_mark_witness :
    is_already_sent (mark_as_sent [] recR).1 recR.chat_id recR.message_id = true ∧
    is_already_sent [] recR.chat_id recR.message_id = false :=
  ⟨(is_already_sent_after_mark [] recR recR.chat_id recR.message_id).1,
   (is_already_sent_after_mark [] recR recR.chat_id recR.message_id).2
     (by intro r hr; cases hr)⟩

/-- C9: a 30-day cleanup keeps exactly the records whose timestamp is not
strictly older than now minus 30 days, its deleted count complements the
survivors, and an immediate second run at the same clock deletes zero. -/
theorem cleanup_old_records_exact :
    ∀ (db : List SentRecord) (now : Int),
      (∀ r ∈ db,
        (r ∈ (cleanup_old_records db now 30).1 ↔
          ¬(r.sent_at < now - 30 * secondsPerDay))) ∧
      (cleanup_old_records db now 30).1.length + (cleanup_old_records db now 30).2 =
        db.length ∧
      (cleanup_old_records (cleanup_old_records db now 30).1 now 30).2 = 0 := by
  intro db now
  refine ⟨?_, ?_, ?_⟩
  · intro r hr
    simp [cleanup_old_records, List.mem_filter, hr]
  · exact filter_not_add_filter_length
      (fun r => decide (r.sent_at < now - 30 * secondsPerDay)) db
  · show ((List.filter _ (List.filter _ db)).length = 0)
    rw [List.filter_filter]
    have : ∀ r : SentRecord,
        (decide (r.sent_at < now - 30 * secondsPerDay) &&
         !(decide (r.sent_at < now - 30 * secondsPerDay))) = false := by
      intro r
      cases decide (r.sent_at < now - 30 * secondsPerDay) <;> rfl
    simp only [this, List.filter_false, List.length_nil]

/-- C9 witness: cleanup of a two-record table with one record 31 days old
and one a single day old. -/
theorem cleanup_old_records_exact_witness :
    ((⟨strOf "c", 1, strOf "h", 0⟩ : SentRecord) ∈
        (cleanup_old_records
          [⟨strOf "c", 1, strOf "h", 0⟩, ⟨strOf "c", 2, strOf "h", -31 * 86400⟩]
          (86400 : Int) 30).1 ↔
      ¬((0 : Int) < (86400 : Int) - 30 * secondsPerDay)) ∧
    (cleanup_old_records
        (cleanup_old_records
          [⟨strOf "c", 1, strOf "h", 0⟩, ⟨strOf "c", 2, strOf "h", -31 * 86400⟩]
          (86400 : Int) 30).1 (86400 : Int) 30).2 = 0 :=
  ⟨(cleanup_old_records_exact
      [⟨strOf "c", 1, strOf "h", 0⟩, ⟨strOf "c", 2, strOf "h", -31 * 86400⟩]
      (86400 : Int)).1 ⟨strOf "c", 1, strOf "h", 0⟩ (by decide),
   (cleanup_old_records_exact
      [⟨strOf "c", 1, strOf "h", 0⟩, ⟨strOf "c", 2, strOf "h", -31 * 86400⟩]
      (86400 : Int)).2.2⟩

/-- Appending a fresh entry makes its key found last. -/
theorem lookupKey_append_right {V : Type} (k : Str) (v : V) :
    ∀ (m : List (Str × V)), (∀ p ∈ m, p.1 ≠ k) →
      lookupKey (m ++ [(k, v)]) k = some v := by
  intro m
  induction m with
  | nil =>
      intro _
      show lookupKey [(k, v)] k = some v
      simp [lookupKey]
  | cons a m ih =>
      intro hnot
      obtain ⟨a1, a2⟩ := a
      have ha : a1 ≠ k := hnot (a1, a2) (List.mem_cons_self _ _)
      rw [List.cons_append]
      show lookupKey ((a1, a2) :: (m ++ [(k, v)])) k = some v
      simp only [lookupKey]
      rw [if_neg ha]
      exact ih (fun p hp => hnot p (List.mem_cons_of_mem _ hp))

/-- Appending an entry does not change lookups of other keys. -/
theorem lookupKey_append_ne {V : Type} (k : Str) (v : V) (k' : Str) (h : k' ≠ k) :
    ∀ (m : List (Str × V)), lookupKey (m ++ [(k, v)]) k' = lookupKey m k' := by
  intro m
  induction m with
  | nil =>
      show lookupKey [(k, v)] k' = lookupKey [] k'
      simp only [lookupKey]
      rw [if_neg (fun hc : k = k' => h hc.symm)]
  | cons a m ih =>
      obtain ⟨a1, a2⟩ := a
      rw [List.cons_append]
      show lookupKey ((a1, a2) :: (m ++ [(k, v)])) k' = lookupKey ((a1, a2) :: m) k'
      simp only [lookupKey]
      split
      · rfl
      · exact ih

/-- Overwriting an existing key makes it map to the new value. -/
theorem lookupKey_map_self {V : Type} (k : Str) (v : V) :
    ∀ (m : List (Str × V)), (∃ p ∈ m, p.1 = k) →
      lookupKey (m.map (fun p => if p.1 = k then (k, v) else p)) k = some v := by
  intro m
  induction m with
  | nil =>
      rintro ⟨p, hp, _⟩
      cases hp
  | cons a m ih =>
      rintro ⟨p, hp, hpk⟩
      obtain ⟨a1, a2⟩ := a
      by_cases ha : a1 = k
      · simp only [List.map_cons]
        rw [if_pos (show (a1, a2).1 = k from ha)]
        show lookupKey ((k, v) :: _) k = some v
        simp [lookupKey]
      · have hp' : ∃ p ∈ m, p.1 = k := by
          rcases List.mem_cons.mp hp with h | h
          · rw [h] at hpk
            exact absurd hpk ha
          · exact ⟨p, h, hpk⟩
        simp only [List.map_cons]
        rw [if_neg (show ¬((a1, a2).1 = k) from ha)]
        show lookupKey ((a1, a2) :: _) k = some v
        simp only [lookupKey]
        rw [if_neg ha]
        exact ih hp'

/-- Overwriting a key does not change lookups of other keys. -/
theorem lookupKey_map_ne {V : Type} (k : Str) (v : V) (k' : Str) (h : k' ≠ k) :
    ∀ (m : List (Str × V)),
      lookupKey (m.map (fun p => if p.1 = k then (k, v) else p)) k' = lookupKey m k' := by
  intro m
  induction m with
  | nil => rfl
  | cons a m ih =>
      obtain ⟨a1, a2⟩ := a
      by_cases ha : a1 = k
      · simp only [List.map_cons]
        rw [if_pos (show (a1, a2).1 = k from ha)]
        show lookupKey ((k, v) :: _) k' = lookupKey ((a1, a2) :: m) k'
        simp only [lookupKey]
        rw [if_neg (fun hc : k = k' => h hc.symm),
            if_neg (fun hc : a1 = k' => h (hc.symm.trans ha))]
        exact ih
      · simp only [List.map_cons]
        rw [if_neg (show ¬((a1, a2).1 = k) from ha)]
        show lookupKey ((a1, a2) :: _) k' = lookupKey ((a1, a2) :: m) k'
        simp only [lookupKey]
        split
        · rfl
        · exact ih

/-- Looking up the assigned key after `setEntry` yields the stored value. -/
theorem lookupKey_setEntry_self {V : Type} (m : List (Str × V)) (k : Str) (v : V) :
    lookupKey (setEntry m k v) k = some v := by
  unfold setEntry
  split
  · next hany =>
      obtain ⟨p, hp, hpk⟩ := List.any_eq_true.mp hany
      exact lookupKey_map_self k v m ⟨p, hp, of_decide_eq_true hpk⟩
  · next hany =>
      apply lookupKey_append_right k v m
      intro p hp hpk
      exact hany (List.any_eq_true.mpr ⟨p, hp, decide_eq_true hpk⟩)

/-- Looking up a different key after `setEntry` is unchanged. -/
theorem lookupKey_setEntry_other {V : Type} (m : List (Str × V)) (k : Str) (v : V)
    (k' : Str) (h : k' ≠ k) : lookupKey (setEntry m k v) k' = lookupKey m k' := by
  unfold setEntry
  split
  · exact lookupKey_map_ne k v k' h m
  · exact lookupKey_append_ne k v k' h m

/-- Every entry of `setEntry m k v` comes from `m` or carries the key `k`. -/
theorem mem_setEntry {V : Type} (m : List (Str × V)) (k : Str) (v : V)
    (e : Str × V) (he : e ∈ setEntry m k v) : e ∈ m ∨ e.1 = k := by
  unfold setEntry at he
  split at he
  · obtain ⟨p, hp, hpe⟩ := List.mem_map.mp he
    by_cases hk : p.1 = k
    · right
      rw [if_pos hk] at hpe
      rw [← hpe]
    · left
      rw [if_neg hk] at hpe
      rw [← hpe]
      exact hp
  · rcases List.mem_append.mp he with h | h
    · exact Or.inl h
    · right
      rw [List.mem_singleton.mp h]

/-- Invariant of the `monitor_chats` fold: a key already mapped to its
per-link count, or still to be processed, ends mapped to its count. -/
theorem monitor_fold_lookup (proc : Str → Except PyError Nat) :
    ∀ (ls : List Str) (init : List (Str × Nat)) (k : Str),
      (lookupKey init k = some (deliveredOf proc k) ∨ k ∈ ls) →
      lookupKey (List.foldl (monitor_step proc) init ls) k =
        some (deliveredOf proc k) := by
  intro ls
  induction ls with
  | nil =>
      intro init k h
      rcases h with h | h
      · exact h
      · cases h
  | cons l ls ih =>
      intro init k h
      rw [List.foldl_cons]
      apply ih
      by_cases hk : k = l
      · subst hk
        exact Or.inl (lookupKey_setEntry_self init k (deliveredOf proc k))
      · rcases h with h | h
        · exact Or.inl ((lookupKey_setEntry_other init l (deliveredOf proc l) k hk).trans h)
        · rcases List.mem_cons.mp h with h | h
          · exact absurd h hk
          · exact Or.inr h

/-- Invariant of the `monitor_chats` fold: every result key was already in
the accumulator or is one of the processed links. -/
theorem monitor_fold_keys (proc : Str → Except PyError Nat) :
    ∀ (ls : List Str) (init : List (Str × Nat)) (e : Str × Nat),
      e ∈ List.foldl (monitor_step proc) init ls →
      (∃ p ∈ init, e.1 = p.1) ∨ e.1 ∈ ls := by
  intro ls
  induction ls with
  | nil =>
      intro init e he
      exact Or.inl ⟨e, he, rfl⟩
  | cons l ls ih =>
      intro init e he
      rw [List.foldl_cons] at he
      rcases ih _ e he with ⟨p, hp, hep⟩ | h
      · rcases mem_setEntry _ _ _ p hp with h | h
        · exact Or.inl ⟨p, h, hep⟩
        · exact Or.inr (by rw [hep, h]; exact List.mem_cons_self _ _)
      · exact Or.inr (List.mem_cons_of_mem _ h)

/-- The `validate_chats` fold appends exactly the resolvable links. -/
theorem validate_fold (g : Str → Except PyError Chat) :
    ∀ (links : List Str) (acc : List Str),
      List.foldl
        (fun acc l =>
          match g l with
          | .ok _ => acc ++ [l]
          | .error _ => acc)
        acc links = acc ++ links.filter (fun l => isOkB (g l)) := by
  intro links
  induction links with
  | nil => intro acc; simp
  | cons l ls ih =>
      intro acc
      rw [List.foldl_cons]
      cases hg : g l with
      | ok c => simp [hg, ih, List.filter_cons, isOkB]
      | error e => simp [hg, ih, List.filter_cons, isOkB]

/-- C2: one tick is a total function — no per-source error escapes: the
result map assigns every configured link its processed count, a link whose
processing raised any of the handled exception kinds is recorded with zero
delivered, the map mentions only configured links, and startup validation
keeps exactly the links whose resolution succeeds, in order. -/
theorem monitor_chats_total_isolated :
    ∀ (links : List Str) (proc : Str → Except PyError Nat)
      (g : Str → Except PyError Chat),
      (∀ l ∈ links, lookupKey (monitor_chats links proc) l = some (deliveredOf proc l)) ∧
      (∀ l ∈ links, isOkB (proc l) = false →
        lookupKey (monitor_chats links proc) l = some 0) ∧
      (∀ e ∈ monitor_chats links proc, e.1 ∈ links) ∧
      validate_chats links g = links.filter (fun l => isOkB (g l)) := by
  intro links proc g
  refine ⟨?_, ?_, ?_, ?_⟩
  · intro l hl
    exact monitor_fold_lookup proc links [] l (Or.inr hl)
  · intro l hl herr
    have h0 : deliveredOf proc l = 0 := by
      unfold deliveredOf
      cases hp : proc l with
      | ok n => rw [hp] at herr; exact absurd herr (by simp [isOkB])
      | error e => rfl
    rw [← h0]
    exact monitor_fold_lookup proc links [] l (Or.inr hl)
  · intro e he
    rcases monitor_fold_keys proc links [] e he with ⟨p, hp, _⟩ | h
    · cases hp
    · exact h
  · exact validate_fold g links []

/-- C2 witness: a two-link tick where the second link raises a connection
error and, in validation, fails resolution. -/
theorem monitor_chats_total_isolated_witness :
    ((strOf "b") ∈ [strOf "a", strOf "b"] ∧
      lookupKey (monitor_chats [strOf "a", strOf "b"] procW) (strOf "b") = some 0) ∧
    validate_chats [strOf "a", strOf "b"] getInfoW =
      List.filter (fun l => isOkB (getInfoW l)) [strOf "a", strOf "b"] :=
  ⟨⟨by decide,
    (monitor_chats_total_isolated [strOf "a", strOf "b"] procW getInfoW).2.1
      (strOf "b") (by decide) (by decide)⟩,
   (monitor_chats_total_isolated [strOf "a", strOf "b"] procW getInfoW).2.2.2⟩

/-- The gate verdict is the conjunction of the three classifier checks. -/
theorem gate_candidate_fst (ot ca io : Str → Bool) (q : Str) :
    (gate_candidate ot ca io q).1 = (ot q && ca q && io q) := by
  unfold gate_candidate
  cases hot : ot q <;> cases hca : ca q <;> cases hio : io q <;> simp [hot, hca, hio]

/-- The calls made by the gate stop at the first negative verdict, in the
fixed order topic, confidence, order. -/
theorem gate_candidate_trace (ot ca io : Str → Bool) (q : Str) :
    (gate_candidate ot ca io q).2 =
      (if ot q = false then [GateCall.onTopicCall]
       else if ca q = false then [GateCall.onTopicCall, GateCall.confidenceCall]
       else [GateCall.onTopicCall, GateCall.confidenceCall, GateCall.orderCall]) := by
  unfold gate_candidate
  cases hot : ot q <;> cases hca : ca q <;> cases hio : io q <;> simp [hot, hca, hio]

/-- C4: the per-candidate gate evaluates the three classifier checks in the
fixed order on-topic, confidently-answerable, actionable, short-circuits on
the first false (so the verdict is their conjunction and later calls are
skipped), and every candidate `process_chat` sends passed the heuristic
filter and all three checks. -/
theorem process_chat_gate_order :
    (∀ (ot ca io : Str → Bool) (q : Str),
      (gate_candidate ot ca io q).1 = (ot q && ca q && io q) ∧
      (gate_candidate ot ca io q).2 =
        (if ot q = false then [GateCall.onTopicCall]
         else if ca q = false then [GateCall.onTopicCall, GateCall.confidenceCall]
         else [GateCall.onTopicCall, GateCall.confidenceCall, GateCall.orderCall])) ∧
    (∀ (chat : Chat) (messages : List (Str × MessageMeta))
       (topicOf : List Str → Str) (onTopic : Str → Str → Bool)
       (canAnswer isOrder : Str → Bool) (sink : Question → Bool)
       (db : List SentRecord) (p : Str × MessageMeta),
      p ∈ (process_chat chat messages topicOf onTopic canAnswer isOrder sink db).sent →
      is_real_question p.1 = true ∧
      onTopic p.1 (topicOf (messages.map Prod.fst)) = true ∧
      canAnswer p.1 = true ∧ isOrder p.1 = true) := by
  constructor
  · exact fun ot ca io q => ⟨gate_candidate_fst ot ca io q, gate_candidate_trace ot ca io q⟩
  · intro chat messages topicOf onTopic canAnswer isOrder sink db p hp
    unfold process_chat at hp
    split at hp
    · cases hp
    · dsimp only at hp
      split at hp
      · cases hp
      · dsimp only at hp
        obtain ⟨hsuit, _⟩ := List.mem_filter.mp hp
        obtain ⟨hfilt, hgate⟩ := List.mem_filter.mp hsuit
        obtain ⟨_, hreal⟩ := List.mem_filter.mp hfilt
        rw [gate_candidate_fst] at hgate
        simp only [Bool.and_eq_true] at hgate
        exact ⟨hreal, hgate.1.1, hgate.1.2, hgate.2⟩

/-- C4 witness: a one-candidate run with all-positive oracles, whose sent
list contains the candidate. -/
theorem process_chat_gate_order_witness :
    ((exampleQuestion, metaM) ∈
        (process_chat chatC messagesC (fun _ => strOf "тема") (fun _ _ => true)
          (fun _ => true) (fun _ => true) (fun _ => true) []).sent) ∧
    (is_real_question exampleQuestion = true ∧
      (fun (_ : Str) (_ : Str) => true) exampleQuestion
        ((fun _ => strOf "тема") (messagesC.map Prod.fst)) = true ∧
      (fun (_ : Str) => true) exampleQuestion = true ∧
      (fun (_ : Str) => true) exampleQuestion = true) :=
  ⟨by decide,
   process_chat_gate_order.2 chatC messagesC (fun _ => strOf "тема") (fun _ _ => true)
     (fun _ => true) (fun _ => true) (fun _ => true) [] (exampleQuestion, metaM)
     (by decide)⟩

/-- C1: the code contradicts the dedup claim — `process_chat` neither
consults nor writes the dedup store: on a batch whose only candidate is
suitable and whose key is already recorded as sent, the candidate is
delivered again (count 1, candidate in the sent list) and the store is
returned unchanged, with no record of the delivery committed. -/
theorem process_chat_ignores_dedup_store :
    is_already_sent dbC chatC.id metaM.message_id = true ∧
    process_chat chatC messagesC (fun _ => strOf "тема") (fun _ _ => true)
      (fun _ => true) (fun _ => true) (fun _ => true) dbC =
      ⟨1, dbC, messagesC⟩ := by
  constructor
  · decide
  · decide

end VoprosAI
